import Mathlib

/-
Verification of the task-supervision core of the kopf operator runtime
(file kopf/_core/reactor/running.py): the run_tasks shutdown protocol,
the startup/cleanup activity runner, the ultimate-termination watchdog,
the stop-flag checker, and the option validation of spawn_tasks.

Shallow embedding conventions: each coroutine is embedded as a pure
function from an environment (which resolves every await: which tasks
completed first, whether a wait was cancelled from outside) to the trace
of externally visible actions it performs, paired with its result
(normal return, raised error, or propagated cancellation). Helper
functions from the module kopf._cogs.aiokits (aiotasks, aioadapters),
whose file is not part of the sources here, are modelled from the
specification text and carry a doc comment saying so.
-/

namespace Kopf

/-- Outcome with which an awaited task completes: a normal return,
an exception (identified by a numeric code), or a cancellation. -/
inductive Outcome where
  | success : Outcome
  | failure : Nat → Outcome
  | cancelled : Outcome
deriving DecidableEq, Repr

/-- An asyncio task as seen by the supervisor: an identity, the outcome
it completes with when it finishes on its own, and the outcome it
completes with after being cancelled and awaited (a cancelled task
normally finishes as cancelled, but user code may catch the
cancellation and return or raise instead). -/
structure OpTask where
  id : Nat
  doneOutcome : Outcome
  cancelOutcome : Outcome
deriving DecidableEq, Repr

/-- Environment resolving the awaits inside run_tasks: whether the first
wait is cancelled from outside, which task ids completed at the first
wait, the tasks discovered by the snapshot diff at shutdown, whether the
bounded wait for those is cancelled from outside, and which of them
finished within the bound. -/
structure RunEnv where
  firstWaitCancelled : Bool
  doneIds : List Nat
  hungTasks : List OpTask
  hungWaitCancelled : Bool
  hungDoneIds : List Nat
deriving DecidableEq, Repr

/-- Externally visible actions of run_tasks, in program order: the first
wait over all tasks, a cancel-and-await pass over a set of tasks (with
its progress-logging interval, none meaning the default), the bounded
wait for hung tasks (with its timeout in seconds), and the final
collection that re-raises the first error found. -/
inductive Event where
  | waitFirst : List Nat → Event
  | stop : String → List Nat → Option Nat → Event
  | waitHung : List Nat → Nat → Event
  | reraise : List Nat → Event
deriving DecidableEq, Repr

/-- Result of a run_tasks call: normal return, an error surfaced from a
collected task, or a propagated outer cancellation. -/
inductive RunResult where
  | ok : RunResult
  | failed : Nat → RunResult
  | cancelled : RunResult
deriving DecidableEq, Repr

/-- Ids of a list of tasks. -/
def idsOf (ts : List OpTask) : List Nat :=
  ts.map OpTask.id

/-- Membership of the id of a task in a task list; this models the
identity-based membership tests of the source (task in system_tasks). -/
def memberId (ts : List OpTask) (t : OpTask) : Bool :=
  decide (t.id ∈ idsOf ts)

/-- Modelled from the spec: aiotasks.reraise (module kopf._cogs.aiokits
is absent from the sources). If any collected task ended in error,
surface that error to the caller, the first one found; cancellations are
not errors; otherwise return normally. -/
def reraise : List Outcome → RunResult
  | [] => RunResult.ok
  | Outcome.failure e :: _ => RunResult.failed e
  | Outcome.success :: rest => reraise rest
  | Outcome.cancelled :: rest => reraise rest

/-- Tasks of the combined list that completed at the first wait. -/
def tasksDoneOf (system_tasks root_tasks : List OpTask) (env : RunEnv) : List OpTask :=
  (system_tasks ++ root_tasks).filter (fun t => decide (t.id ∈ env.doneIds))

/-- Tasks of the combined list still pending after the first wait. -/
def tasksPendingOf (system_tasks root_tasks : List OpTask) (env : RunEnv) : List OpTask :=
  (system_tasks ++ root_tasks).filter (fun t => !decide (t.id ∈ env.doneIds))

/-- Pending tasks that are not system tasks (the source expression
"task for task in tasks_pending if task not in system_tasks"). -/
def rootPendingOf (system_tasks root_tasks : List OpTask) (env : RunEnv) : List OpTask :=
  (tasksPendingOf system_tasks root_tasks env).filter (fun t => !memberId system_tasks t)

/-- Pending tasks that are not root tasks (the source expression
"task for task in tasks_pending if task not in root_tasks"). -/
def systemPendingOf (system_tasks root_tasks : List OpTask) (env : RunEnv) : List OpTask :=
  (tasksPendingOf system_tasks root_tasks env).filter (fun t => !memberId root_tasks t)

/-- Hung tasks that finished within the bounded wait. -/
def hungDoneOf (env : RunEnv) : List OpTask :=
  env.hungTasks.filter (fun t => decide (t.id ∈ env.hungDoneIds))

/-- Hung tasks still pending after the bounded wait. -/
def hungPendingOf (env : RunEnv) : List OpTask :=
  env.hungTasks.filter (fun t => !decide (t.id ∈ env.hungDoneIds))

/-- Outcomes of the union collected at the end of run_tasks:
tasks_done with their own outcomes, the cancelled root and system tasks
with their post-cancellation outcomes, and likewise for hung tasks. -/
def collectedOutcomesOf (system_tasks root_tasks : List OpTask) (env : RunEnv) : List Outcome :=
  (tasksDoneOf system_tasks root_tasks env).map OpTask.doneOutcome
    ++ (rootPendingOf system_tasks root_tasks env
        ++ systemPendingOf system_tasks root_tasks env).map OpTask.cancelOutcome
    ++ (hungDoneOf env).map OpTask.doneOutcome
    ++ (hungPendingOf env).map OpTask.cancelOutcome

/-- Ids of the collected union, in the same order as the outcomes. -/
def collectedIdsOf (system_tasks root_tasks : List OpTask) (env : RunEnv) : List Nat :=
  idsOf (tasksDoneOf system_tasks root_tasks env)
    ++ idsOf (rootPendingOf system_tasks root_tasks env
              ++ systemPendingOf system_tasks root_tasks env)
    ++ idsOf (hungDoneOf env)
    ++ idsOf (hungPendingOf env)

/-- Embedding of run_tasks from kopf/_core/reactor/running.py.
The cancel-and-await passes (aiotasks.stop: modelled from the spec as
cancelling every task of the given set and awaiting its full completion)
are recorded as stop events; the snapshot-diff discovery
(aiotasks.all_tasks: modelled from the spec) yields env.hungTasks.
The first branch is the except-CancelledError path of the first wait;
the second is the except path of the bounded hung wait. -/
def run_tasks (system_tasks root_tasks : List OpTask) (env : RunEnv) :
    List Event × RunResult :=
  let tasks := system_tasks ++ root_tasks
  let wf := Event.waitFirst (idsOf tasks)
  if env.firstWaitCancelled then
    ([wf,
      Event.stop "Root" (idsOf root_tasks) (some 10),
      Event.stop "System" (idsOf system_tasks) (some 10),
      Event.stop "Hung" (idsOf env.hungTasks) (some 1)],
     RunResult.cancelled)
  else
    let rootPending := rootPendingOf system_tasks root_tasks env
    let systemPending := systemPendingOf system_tasks root_tasks env
    let hungIds := idsOf env.hungTasks
    if env.hungWaitCancelled then
      ([wf,
        Event.stop "Root" (idsOf rootPending) none,
        Event.stop "System" (idsOf systemPending) none,
        Event.waitHung hungIds 5,
        Event.stop "Hung" hungIds (some 1)],
       RunResult.cancelled)
    else
      ([wf,
        Event.stop "Root" (idsOf rootPending) none,
        Event.stop "System" (idsOf systemPending) none,
        Event.waitHung hungIds 5,
        Event.stop "Hung" (idsOf (hungPendingOf env)) (some 1),
        Event.reraise (collectedIdsOf system_tasks root_tasks env)],
       reraise (collectedOutcomesOf system_tasks root_tasks env))

/-- Titles of the stop passes of a trace, in order. -/
def stopTitles (tr : List Event) : List String :=
  tr.filterMap (fun e =>
    match e with
    | Event.stop title _ _ => some title
    | _ => none)

def c3Sys : List OpTask := [⟨1, Outcome.success, Outcome.cancelled⟩]

def c3Root : List OpTask :=
  [⟨2, Outcome.success, Outcome.cancelled⟩, ⟨3, Outcome.failure 9, Outcome.cancelled⟩]

def c3EnvCancel : RunEnv := ⟨true, [], [⟨4, Outcome.success, Outcome.cancelled⟩], false, []⟩

def c3EnvOk : RunEnv := ⟨false, [2], [], false, []⟩

def c1Sys : List OpTask := [⟨1, Outcome.success, Outcome.cancelled⟩]

def c1Root : List OpTask :=
  [⟨2, Outcome.failure 7, Outcome.cancelled⟩, ⟨3, Outcome.success, Outcome.cancelled⟩]

def c1Env : RunEnv := ⟨false, [2], [], false, []⟩

def c2Sys : List OpTask := [⟨1, Outcome.success, Outcome.cancelled⟩]

def c2Root : List OpTask :=
  [⟨2, Outcome.success, Outcome.cancelled⟩, ⟨3, Outcome.success, Outcome.cancelled⟩,
   ⟨4, Outcome.success, Outcome.cancelled⟩]

def c2Env : RunEnv := ⟨false, [3], [], false, []⟩

/-- Outcome of one activity invocation or of an awaiting step inside the
activity runner. -/
inductive ActOutcome where
  | success : ActOutcome
  | cancelled : ActOutcome
  | failed : Nat → ActOutcome
deriving DecidableEq, Repr

/-- Environment resolving the awaits of the activity runner: how the
startup activity ends, whether the wait for the other tasks is itself
cancelled, and how the cleanup activity ends. The forever-sleep in the
middle always ends by cancellation, which the source swallows. -/
structure ActEnv where
  startupOutcome : ActOutcome
  waitOthersCancelled : Bool
  cleanupOutcome : ActOutcome
deriving DecidableEq, Repr

/-- Externally visible steps of the activity runner, in program order:
run the startup activity, set the started flag (open the gate), raise
the ready flag, sleep until shutdown, await completion of every other
root task then of every other system task, run the cleanup activity,
close the credentials vault. -/
inductive RunnerEvent where
  | runStartup : RunnerEvent
  | openGate : RunnerEvent
  | raiseReady : RunnerEvent
  | sleepForever : RunnerEvent
  | awaitOtherRoots : List Nat → RunnerEvent
  | awaitOtherSystems : List Nat → RunnerEvent
  | runCleanup : RunnerEvent
  | closeVault : RunnerEvent
deriving DecidableEq, Repr

/-- Result of the activity runner task. -/
inductive RunnerResult where
  | done : RunnerResult
  | cancelled : RunnerResult
  | failed : Nat → RunnerResult
deriving DecidableEq, Repr

/-- Embedding of the coroutine of the function
named underscore-startup-cleanup-activities in
kopf/_core/reactor/running.py. The startup activity runs first; on its
cancellation the runner logs and re-raises, never reaching the flag
setting. On success the started flag is set and the ready flag raised,
then the runner sleeps until cancelled. It then awaits every other root
task and every other system task, excluding itself; a cancellation of
that wait skips the cleanup entirely and propagates. Otherwise the
cleanup activity runs, and on its success the vault is closed. The two
await steps (aiotasks.wait with no timeout: modelled from the spec as
awaiting completion of the whole given set) carry the awaited ids. -/
def startup_cleanup_activities (rootIds systemIds : List Nat) (selfId : Nat)
    (env : ActEnv) : List RunnerEvent × RunnerResult :=
  match env.startupOutcome with
  | ActOutcome.cancelled => ([RunnerEvent.runStartup], RunnerResult.cancelled)
  | ActOutcome.failed e => ([RunnerEvent.runStartup], RunnerResult.failed e)
  | ActOutcome.success =>
    let started := [RunnerEvent.runStartup, RunnerEvent.openGate, RunnerEvent.raiseReady,
                    RunnerEvent.sleepForever]
    if env.waitOthersCancelled then
      (started, RunnerResult.cancelled)
    else
      let quiesced := started
        ++ [RunnerEvent.awaitOtherRoots (rootIds.filter (fun i => !decide (i = selfId))),
            RunnerEvent.awaitOtherSystems (systemIds.filter (fun i => !decide (i = selfId)))]
      match env.cleanupOutcome with
      | ActOutcome.cancelled => (quiesced ++ [RunnerEvent.runCleanup], RunnerResult.cancelled)
      | ActOutcome.failed e => (quiesced ++ [RunnerEvent.runCleanup], RunnerResult.failed e)
      | ActOutcome.success =>
          (quiesced ++ [RunnerEvent.runCleanup, RunnerEvent.closeVault], RunnerResult.done)

def c5Env : ActEnv := ⟨ActOutcome.success, false, ActOutcome.success⟩

/-- Atomic actions of the startup phase, interleaving the activity
runner with the guarded root and system tasks: the runner completes the
startup activity (or is cancelled during it), sets the started flag,
raises the ready flag; a guarded task begins its real body, or is
cancelled while still waiting at the gate. -/
inductive GAction where
  | startupDone : GAction
  | startupCancel : GAction
  | openGate : GAction
  | raiseReady : GAction
  | body : Nat → GAction
  | guardCancel : Nat → GAction
deriving DecidableEq, Repr

/-- Program order of the activity runner during startup, from the
source: the started flag is set and the ready flag raised strictly
after the startup activity returns; if the activity is cancelled the
runner re-raises at once and never reaches the flag. -/
def runnerScript (cancelledDuringStartup : Bool) : List GAction :=
  if cancelledDuringStartup then [GAction.startupCancel]
  else [GAction.startupDone, GAction.openGate, GAction.raiseReady]

def isRunnerAction : GAction → Bool
  | GAction.startupDone => true
  | GAction.startupCancel => true
  | GAction.openGate => true
  | GAction.raiseReady => true
  | GAction.body _ => false
  | GAction.guardCancel _ => false

/-- Scheduler state: the remaining program of the runner, and the gate
(the started flag, an asyncio Event, initially unset). -/
structure GState where
  runnerRem : List GAction
  gateOpen : Bool
deriving DecidableEq, Repr

/-- One scheduling step. A runner action must be the next one of its
program, and sets the gate when it is the flag-setting step. Modelled
from the spec: aiotasks.create_guarded_task first suspends on the gate,
so the body of a guarded task can begin only while the gate is open;
a guarded task can instead be cancelled while parked at the gate, in
which case its body never runs. -/
def gstep (s : GState) (a : GAction) : Option GState :=
  if isRunnerAction a then
    match s.runnerRem with
    | [] => none
    | r :: rest =>
      if r = a then
        some ⟨rest, s.gateOpen || decide (a = GAction.openGate)⟩
      else none
  else
    match a with
    | GAction.body _ => if s.gateOpen then some s else none
    | GAction.guardCancel _ => some s
    | _ => none

def execTrace : GState → List GAction → Option GState
  | s, [] => some s
  | s, a :: rest =>
    match gstep s a with
    | none => none
    | some s2 => execTrace s2 rest

def initGState (c : Bool) : GState := ⟨runnerScript c, false⟩

/-- A trace of the startup phase is valid when every action is
schedulable in order from the initial state. -/
def ValidStartupTrace (c : Bool) (tr : List GAction) : Prop :=
  (execTrace (initGState c) tr).isSome = true

instance (c : Bool) (tr : List GAction) : Decidable (ValidStartupTrace c tr) :=
  inferInstanceAs (Decidable ((execTrace (initGState c) tr).isSome = true))

def c4Trace : List GAction :=
  [GAction.guardCancel 5, GAction.startupDone, GAction.openGate,
   GAction.body 1, GAction.raiseReady]

/-- Process-related operator settings: the ultimate-exiting timeout, an
optional number of seconds (None disables the forced kill). -/
structure ProcessSettings where
  ultimate_exiting_timeout : Option Nat
deriving DecidableEq, Repr

/-- The settings object of the operator, reduced to the fields the
supervision core reads. -/
structure OperatorSettings where
  process : ProcessSettings
deriving DecidableEq, Repr

/-- Modelled from the spec: aioadapters.check_flag (module
kopf._cogs.aiokits is absent from the sources) — non-blocking check of
the externally owned stop flag; an absent flag reads as unset. -/
def check_flag : Option Bool → Bool
  | none => false
  | some b => b

/-- Embedding of the cancellation handler of the ultimate-termination
watchdog coroutine of kopf/_core/reactor/running.py: when the watchdog
is cancelled at the start of shutdown, it checks the stop flag; if the
flag is unset and the configured timeout is not None, it arms a delayed
SIGKILL to its own thread via loop.call_later. The returned value is
the delay of the armed timer, or none when no timer is armed. -/
def ultimate_termination (settings : OperatorSettings) (stop_flag : Option Bool) :
    Option Nat :=
  if check_flag stop_flag then none
  else
    match settings.process.ultimate_exiting_timeout with
    | none => none
    | some t => some t

/-- Caller-facing options of spawn_tasks that the validated scope and
the set of created tasks depend on: the cluster-wide flag, the
namespaces list, the deprecated single-namespace option, the liveness
endpoint and the private command option. -/
structure SpawnConfig where
  clusterwide : Bool
  namespaces : List String
  namespaceArg : Option String
  livenessEndpoint : Option String
  hasCommand : Bool
deriving DecidableEq, Repr

/-- The two TypeError cases of the option validation. -/
inductive SpawnError where
  | bothNamespaceKinds : SpawnError
  | bothClusterwideAndNamespaces : SpawnError
deriving DecidableEq, Repr

/-- Warnings emitted by the option validation. -/
inductive SpawnWarning where
  | deprecatedNamespaceArg : SpawnWarning
  | defaultingToClusterwide : SpawnWarning
deriving DecidableEq, Repr

/-- Truthiness of an optional string under Python rules: absent or
empty reads as false. -/
def truthyStr : Option String → Bool
  | none => false
  | some s => !(s == "")

/-- What a successful spawn_tasks call produces, as far as the claims
are concerned: the validated scope, the emitted warnings, and the names
of the created system and root tasks in creation order. -/
structure SpawnResult where
  clusterwide : Bool
  namespaces : List String
  warnings : List SpawnWarning
  systemTaskNames : List String
  rootTaskNames : List String
deriving DecidableEq, Repr

/-- Embedding of the scope validation at the top of spawn_tasks of
kopf/_core/reactor/running.py: the TypeError when both namespaces= and
the deprecated namespace= are given (with deprecation warning and
rewrapping when only the deprecated one is given), the TypeError when
the cluster-wide flag is combined with namespaces, and the defaulting
to cluster-wide with a FutureWarning when neither is given. Returns the
validated cluster-wide flag, namespaces, and emitted warnings. -/
def validate_scope (clusterwide : Bool) (namespaces : List String)
    (namespaceArg : Option String) :
    Except SpawnError (Bool × List String × List SpawnWarning) :=
  if !namespaces.isEmpty && truthyStr namespaceArg then
    Except.error SpawnError.bothNamespaceKinds
  else
    let nsAndWarn :=
      if truthyStr namespaceArg then
        (namespaceArg.toList, [SpawnWarning.deprecatedNamespaceArg])
      else (namespaces, ([] : List SpawnWarning))
    if clusterwide && !nsAndWarn.1.isEmpty then
      Except.error SpawnError.bothClusterwideAndNamespaces
    else if !clusterwide && nsAndWarn.1.isEmpty then
      Except.ok (true, nsAndWarn.1, nsAndWarn.2 ++ [SpawnWarning.defaultingToClusterwide])
    else
      Except.ok (clusterwide, nsAndWarn.1, nsAndWarn.2)

/-- Embedding of spawn_tasks of kopf/_core/reactor/running.py. The
validation runs strictly first: an error result carries no tasks at
all, so the TypeError cases are synchronous and precede every task
creation. On success the system and root tasks are created in the
source order, with the health reporter present only for a truthy
liveness endpoint and the final root task being either the explicit
command or the multidimensional multitasker. -/
def spawn_tasks (cfg : SpawnConfig) : Except SpawnError SpawnResult :=
  match validate_scope cfg.clusterwide cfg.namespaces cfg.namespaceArg with
  | Except.error e => Except.error e
  | Except.ok validated =>
      Except.ok
        { clusterwide := validated.1
          namespaces := validated.2.1
          warnings := validated.2.2
          systemTaskNames :=
            ["stop-flag checker", "ultimate termination", "startup/cleanup activities",
             "daemon killer", "credentials retriever"]
          rootTaskNames :=
            ["poster of events"]
            ++ (if truthyStr cfg.livenessEndpoint then ["health reporter"] else [])
            ++ ["admission insights chain", "admission validating configuration manager",
                "admission mutating configuration manager", "admission webhook server",
                "resource observer", "namespace observer"]
            ++ [if cfg.hasCommand then "the command" else "multidimensional multitasker"] }

/-- The signal slot: an asyncio Future. set_result stores the value on
a pending future; on an already resolved future it raises
InvalidStateError and leaves the stored value unchanged (the second
component reports whether the call succeeded). -/
def set_result (slot : Option Nat) (v : Nat) : Option Nat × Bool :=
  match slot with
  | none => (some v, true)
  | some w => (some w, false)

/-- Which of the awaited stoppers resolved first inside the stop-flag
checker, or a cancellation of the wait itself. -/
inductive CheckerInput where
  | cancelled : CheckerInput
  | signalValue : Nat → CheckerInput
  | stopFlagRaised : CheckerInput
  | stopValue : Nat → CheckerInput
deriving DecidableEq, Repr

/-- How the stop-flag checker exits: silently on a cancelled wait, or
after logging the cause of the stop. -/
inductive CheckerExit where
  | silent : CheckerExit
  | loggedSignal : Nat → CheckerExit
  | loggedStopRaised : CheckerExit
  | loggedStopValue : Nat → CheckerExit
deriving DecidableEq, Repr

/-- Embedding of the stop-flag checker coroutine of
kopf/_core/reactor/running.py: it waits for the first of the signal
future and the stop flag; a cancellation of that wait is swallowed and
the task exits silently; otherwise the cause is logged. The result is
some exit in every case: the task never raises and finishes exactly
once, its normal exit being a shutdown trigger. -/
def stop_flag_checker : CheckerInput → Option CheckerExit
  | CheckerInput.cancelled => some CheckerExit.silent
  | CheckerInput.signalValue s => some (CheckerExit.loggedSignal s)
  | CheckerInput.stopFlagRaised => some CheckerExit.loggedStopRaised
  | CheckerInput.stopValue v => some (CheckerExit.loggedStopValue v)

/-- Timeouts of the bounded hung-task waits appearing in a run_tasks
trace. -/
def hungWaitTimeouts (tr : List Event) : List Nat :=
  tr.filterMap (fun e =>
    match e with
    | Event.waitHung _ t => some t
    | _ => none)

/-- Progress-logging intervals of the stop passes of a trace. -/
def stopIntervals (tr : List Event) : List (Option Nat) :=
  tr.filterMap (fun e =>
    match e with
    | Event.stop _ _ i => some i
    | _ => none)

/-- The hung-task reap timeouts used by a run of run_tasks under a
given operator configuration. The source signature of run_tasks takes
no settings object, so the configuration cannot reach the timeout; the
parameter is accepted here only to express whether the used value
depends on it. -/
def hungReapTimeoutsUnder (_settings : OperatorSettings)
    (system_tasks root_tasks : List OpTask) (env : RunEnv) : List Nat :=
  hungWaitTimeouts (run_tasks system_tasks root_tasks env).1

/-- The progress-logging intervals used by a run of run_tasks under a
given operator configuration; as with the reap timeout, run_tasks never
reads the settings. -/
def stopIntervalsUnder (_settings : OperatorSettings)
    (system_tasks root_tasks : List OpTask) (env : RunEnv) : List (Option Nat) :=
  stopIntervals (run_tasks system_tasks root_tasks env).1

lemma reraise_ok_of_no_failure (l : List Outcome)
    (h : ∀ e, Outcome.failure e ∉ l) : reraise l = RunResult.ok := by
  induction l with
  | nil => rfl
  | cons a rest ih =>
    cases a with
    | success => exact ih (fun e he => h e (List.mem_cons_of_mem _ he))
    | cancelled => exact ih (fun e he => h e (List.mem_cons_of_mem _ he))
    | failure e => exact absurd (List.mem_cons_self _ _) (h e)

lemma reraise_failed_of_failure (l : List Outcome) (e : Nat)
    (h : Outcome.failure e ∈ l) :
    ∃ f, reraise l = RunResult.failed f ∧ Outcome.failure f ∈ l := by
  induction l with
  | nil => cases h
  | cons a rest ih =>
    cases a with
    | failure g => exact ⟨g, rfl, List.mem_cons_self _ _⟩
    | success =>
      have hm : Outcome.failure e ∈ rest := by
        rcases List.mem_cons.mp h with h1 | h1
        · simp at h1
        · exact h1
      obtain ⟨f, hf, hmem⟩ := ih hm
      exact ⟨f, hf, List.mem_cons_of_mem _ hmem⟩
    | cancelled =>
      have hm : Outcome.failure e ∈ rest := by
        rcases List.mem_cons.mp h with h1 | h1
        · simp at h1
        · exact h1
      obtain ⟨f, hf, hmem⟩ := ih hm
      exact ⟨f, hf, List.mem_cons_of_mem _ hmem⟩

lemma id_inj_of_nodup (ts : List OpTask) (h : (idsOf ts).Nodup)
    (t u : OpTask) (ht : t ∈ ts) (hu : u ∈ ts) (hid : t.id = u.id) : t = u := by
  exact List.inj_on_of_nodup_map h ht hu hid

lemma pending_covered
    (system_tasks root_tasks : List OpTask) (env : RunEnv)
    (hdisj : ∀ t ∈ system_tasks, ∀ u ∈ root_tasks, t.id ≠ u.id)
    (t : OpTask) (ht : t ∈ system_tasks ++ root_tasks) (hp : t.id ∉ env.doneIds) :
    t.id ∈ idsOf (rootPendingOf system_tasks root_tasks env)
    ∨ t.id ∈ idsOf (systemPendingOf system_tasks root_tasks env) := by
  rcases List.mem_append.mp ht with hs | hr
  · right
    refine List.mem_map.mpr ⟨t, ?_, rfl⟩
    refine List.mem_filter.mpr ⟨List.mem_filter.mpr ⟨ht, ?_⟩, ?_⟩
    · simpa using hp
    · simp only [memberId, idsOf, Bool.not_eq_eq_eq_not, Bool.not_true,
        decide_eq_false_iff_not]
      intro hmem
      rcases List.mem_map.mp hmem with ⟨u, hu, hid⟩
      exact hdisj t hs u hu hid.symm
  · left
    refine List.mem_map.mpr ⟨t, ?_, rfl⟩
    refine List.mem_filter.mpr ⟨List.mem_filter.mpr ⟨ht, ?_⟩, ?_⟩
    · simpa using hp
    · simp only [memberId, idsOf, Bool.not_eq_eq_eq_not, Bool.not_true,
        decide_eq_false_iff_not]
      intro hmem
      rcases List.mem_map.mp hmem with ⟨u, hu, hid⟩
      exact hdisj u hu t hr hid

/-- C3: an outer cancellation of run_tasks during the first wait cancels
and awaits all root tasks, then all system tasks, then all tasks found
by the snapshot diff, and then re-raises the cancellation: the result is
RunResult.cancelled, not a normal return; moreover on every shutdown
path of run_tasks the stop passes occur in the order Root, System,
Hung. -/
theorem C3_outer_cancellation_root_system_hung_order
    (system_tasks root_tasks : List OpTask) (env : RunEnv)
    (h : env.firstWaitCancelled = true) :
    run_tasks system_tasks root_tasks env =
      ([Event.waitFirst (idsOf (system_tasks ++ root_tasks)),
        Event.stop "Root" (idsOf root_tasks) (some 10),
        Event.stop "System" (idsOf system_tasks) (some 10),
        Event.stop "Hung" (idsOf env.hungTasks) (some 1)],
       RunResult.cancelled)
    ∧ ∀ env2 : RunEnv,
        stopTitles (run_tasks system_tasks root_tasks env2).1 =
          ["Root", "System", "Hung"] := by
  constructor
  · simp [run_tasks, h]
  · intro env2
    by_cases h1 : env2.firstWaitCancelled <;>
      by_cases h2 : env2.hungWaitCancelled <;>
        simp [run_tasks, stopTitles, h1, h2]

theorem C3_outer_cancellation_root_system_hung_order_witness :
    (run_tasks c3Sys c3Root c3EnvCancel).2 = RunResult.cancelled
    ∧ stopTitles (run_tasks c3Sys c3Root c3EnvOk).1 = ["Root", "System", "Hung"] := by
  refine ⟨?_, ?_⟩
  · rw [(C3_outer_cancellation_root_system_hung_order c3Sys c3Root c3EnvCancel rfl).1]
  · exact (C3_outer_cancellation_root_system_hung_order c3Sys c3Root c3EnvCancel rfl).2 c3EnvOk

/-- C1: when the first wait completes normally (no outer cancellation in
either wait), run_tasks cancels and awaits every pending root task, then
every pending system task, then waits for and cancels the hung tasks,
and only then collects the union and re-raises: the trace ends with the
reraise step after all three stop passes, every non-finished root or
system task is covered by the Root or System pass, the result is the
error of some collected task whenever any collected task failed (a
single failure), and a normal return when no collected task failed. -/
theorem C1_failure_surfaced_only_after_full_teardown
    (system_tasks root_tasks : List OpTask) (env : RunEnv)
    (hfw : env.firstWaitCancelled = false) (hhw : env.hungWaitCancelled = false)
    (hdisj : ∀ t ∈ system_tasks, ∀ u ∈ root_tasks, t.id ≠ u.id) :
    (run_tasks system_tasks root_tasks env).1 =
      [Event.waitFirst (idsOf (system_tasks ++ root_tasks)),
       Event.stop "Root" (idsOf (rootPendingOf system_tasks root_tasks env)) none,
       Event.stop "System" (idsOf (systemPendingOf system_tasks root_tasks env)) none,
       Event.waitHung (idsOf env.hungTasks) 5,
       Event.stop "Hung" (idsOf (hungPendingOf env)) (some 1),
       Event.reraise (collectedIdsOf system_tasks root_tasks env)]
    ∧ (∀ t ∈ system_tasks ++ root_tasks, t.id ∉ env.doneIds →
         t.id ∈ idsOf (rootPendingOf system_tasks root_tasks env)
         ∨ t.id ∈ idsOf (systemPendingOf system_tasks root_tasks env))
    ∧ ((∃ e, Outcome.failure e ∈ collectedOutcomesOf system_tasks root_tasks env) →
         ∃ e, (run_tasks system_tasks root_tasks env).2 = RunResult.failed e
           ∧ Outcome.failure e ∈ collectedOutcomesOf system_tasks root_tasks env)
    ∧ ((∀ e, Outcome.failure e ∉ collectedOutcomesOf system_tasks root_tasks env) →
         (run_tasks system_tasks root_tasks env).2 = RunResult.ok) := by
  have hres : (run_tasks system_tasks root_tasks env).2 =
      reraise (collectedOutcomesOf system_tasks root_tasks env) := by
    simp [run_tasks, hfw, hhw]
  refine ⟨?_, ?_, ?_, ?_⟩
  · simp [run_tasks, hfw, hhw]
  · intro t ht hp
    exact pending_covered system_tasks root_tasks env hdisj t ht hp
  · rintro ⟨e, he⟩
    obtain ⟨f, hf, hmem⟩ :=
      reraise_failed_of_failure (collectedOutcomesOf system_tasks root_tasks env) e he
    exact ⟨f, hres.trans hf, hmem⟩
  · intro hno
    exact hres.trans (reraise_ok_of_no_failure _ hno)

theorem C1_failure_surfaced_only_after_full_teardown_witness :
    ∃ e, (run_tasks c1Sys c1Root c1Env).2 = RunResult.failed e
      ∧ Outcome.failure e ∈ collectedOutcomesOf c1Sys c1Root c1Env :=
  (C1_failure_surfaced_only_after_full_teardown c1Sys c1Root c1Env rfl rfl
    (by decide)).2.2.1 ⟨7, by decide⟩

/-- C2: if exactly one root task completes normally while the other
root and system tasks are pending, run_tasks cancels and awaits the
pending root tasks first, then the pending system tasks (visible in the
trace order), every other root or system task is covered by one of
those two passes, and the call returns normally. -/
theorem C2_single_root_completion_cancels_rest_and_returns
    (system_tasks root_tasks : List OpTask) (env : RunEnv) (r : OpTask)
    (hfw : env.firstWaitCancelled = false) (hhw : env.hungWaitCancelled = false)
    (hr : r ∈ root_tasks) (hdone : env.doneIds = [r.id])
    (hrsucc : r.doneOutcome = Outcome.success)
    (hdisj : ∀ t ∈ system_tasks, ∀ u ∈ root_tasks, t.id ≠ u.id)
    (hnodup : (idsOf root_tasks).Nodup)
    (hcanc : ∀ t ∈ system_tasks ++ root_tasks, ∀ e, t.cancelOutcome ≠ Outcome.failure e)
    (hhung : env.hungTasks = []) :
    (run_tasks system_tasks root_tasks env).2 = RunResult.ok
    ∧ (run_tasks system_tasks root_tasks env).1 =
      [Event.waitFirst (idsOf (system_tasks ++ root_tasks)),
       Event.stop "Root" (idsOf (rootPendingOf system_tasks root_tasks env)) none,
       Event.stop "System" (idsOf (systemPendingOf system_tasks root_tasks env)) none,
       Event.waitHung [] 5,
       Event.stop "Hung" [] (some 1),
       Event.reraise (collectedIdsOf system_tasks root_tasks env)]
    ∧ (∀ t ∈ system_tasks ++ root_tasks, t ≠ r →
         t.id ∈ idsOf (rootPendingOf system_tasks root_tasks env)
         ∨ t.id ∈ idsOf (systemPendingOf system_tasks root_tasks env)) := by
  have hres : (run_tasks system_tasks root_tasks env).2 =
      reraise (collectedOutcomesOf system_tasks root_tasks env) := by
    simp [run_tasks, hfw, hhw]
  have hnof : ∀ e, Outcome.failure e ∉ collectedOutcomesOf system_tasks root_tasks env := by
    intro e hmem
    simp only [collectedOutcomesOf, hungDoneOf, hungPendingOf, hhung, List.filter_nil,
      List.map_nil, List.append_nil, List.mem_append, List.mem_map] at hmem
    rcases hmem with ⟨t, htd, hto⟩ | ⟨t, htp, hto⟩
    · have h2 := List.mem_filter.mp htd
      have hid : t.id = r.id := by
        have h3 := h2.2
        rw [hdone] at h3
        simpa using h3
      rcases List.mem_append.mp h2.1 with hs | hrr
      · exact hdisj t hs r hr hid
      · have hteq : t = r := id_inj_of_nodup root_tasks hnodup t r hrr hr hid
        rw [hteq, hrsucc] at hto
        simp at hto
    · rcases htp with htp1 | htp1
      · have h2 := List.mem_filter.mp htp1
        have h3 := List.mem_filter.mp h2.1
        exact hcanc t h3.1 e hto
      · have h2 := List.mem_filter.mp htp1
        have h3 := List.mem_filter.mp h2.1
        exact hcanc t h3.1 e hto
  refine ⟨hres.trans (reraise_ok_of_no_failure _ hnof), ?_, ?_⟩
  · simp [run_tasks, hfw, hhw, hhung, hungPendingOf, idsOf]
  · intro t ht hne
    have hp : t.id ∉ env.doneIds := by
      rw [hdone]
      simp only [List.mem_singleton]
      intro hid
      rcases List.mem_append.mp ht with hs | hrr
      · exact hdisj t hs r hr hid
      · exact hne (id_inj_of_nodup root_tasks hnodup t r hrr hr hid)
    exact pending_covered system_tasks root_tasks env hdisj t ht hp

theorem C2_single_root_completion_cancels_rest_and_returns_witness :
    (run_tasks c2Sys c2Root c2Env).2 = RunResult.ok :=
  (C2_single_root_completion_cancels_rest_and_returns c2Sys c2Root c2Env
    ⟨3, Outcome.success, Outcome.cancelled⟩ rfl rfl (by decide) rfl rfl
    (by decide) (by decide)
    (by intro t ht e
        simp only [c2Sys, c2Root, List.cons_append, List.nil_append, List.mem_cons,
          List.not_mem_nil, or_false] at ht
        rcases ht with h | h | h | h <;> subst h <;> simp)
    rfl).1

/-- C5: the cleanup activity runs only after the runner has awaited the
completion of every other root task and then of every other system task
(itself excluded); the vault close happens only after the cleanup
activity on the fully successful path; and if the wait for the other
tasks is itself cancelled, the cleanup activity is never reached and
the cancellation is propagated as the result. -/
theorem C5_cleanup_only_after_all_other_tasks
    (rootIds systemIds : List Nat) (selfId : Nat) (env : ActEnv) :
    (RunnerEvent.runCleanup ∈ (startup_cleanup_activities rootIds systemIds selfId env).1 →
      ∃ rest, (startup_cleanup_activities rootIds systemIds selfId env).1 =
        [RunnerEvent.runStartup, RunnerEvent.openGate, RunnerEvent.raiseReady,
         RunnerEvent.sleepForever,
         RunnerEvent.awaitOtherRoots (rootIds.filter (fun i => !decide (i = selfId))),
         RunnerEvent.awaitOtherSystems (systemIds.filter (fun i => !decide (i = selfId)))]
        ++ RunnerEvent.runCleanup :: rest)
    ∧ (RunnerEvent.closeVault ∈ (startup_cleanup_activities rootIds systemIds selfId env).1 →
        (startup_cleanup_activities rootIds systemIds selfId env).1 =
        [RunnerEvent.runStartup, RunnerEvent.openGate, RunnerEvent.raiseReady,
         RunnerEvent.sleepForever,
         RunnerEvent.awaitOtherRoots (rootIds.filter (fun i => !decide (i = selfId))),
         RunnerEvent.awaitOtherSystems (systemIds.filter (fun i => !decide (i = selfId))),
         RunnerEvent.runCleanup, RunnerEvent.closeVault])
    ∧ (env.startupOutcome = ActOutcome.success → env.waitOthersCancelled = true →
        (startup_cleanup_activities rootIds systemIds selfId env).2 = RunnerResult.cancelled
        ∧ RunnerEvent.runCleanup ∉ (startup_cleanup_activities rootIds systemIds selfId env).1
        ∧ RunnerEvent.closeVault ∉ (startup_cleanup_activities rootIds systemIds selfId env).1) := by
  rcases env with ⟨so, wc, co⟩
  refine ⟨?_, ?_, ?_⟩
  · intro hmem
    cases so <;> cases wc <;> cases co <;>
      simp_all [startup_cleanup_activities]
  · intro hmem
    cases so <;> cases wc <;> cases co <;>
      simp_all [startup_cleanup_activities]
  · intro hso hwc
    cases so <;> cases wc <;> cases co <;>
      simp_all [startup_cleanup_activities]

theorem C5_cleanup_only_after_all_other_tasks_witness :
    ∃ rest, (startup_cleanup_activities [1, 2] [3] 3 c5Env).1 =
      [RunnerEvent.runStartup, RunnerEvent.openGate, RunnerEvent.raiseReady,
       RunnerEvent.sleepForever,
       RunnerEvent.awaitOtherRoots ([1, 2].filter (fun i => !decide (i = 3))),
       RunnerEvent.awaitOtherSystems ([3].filter (fun i => !decide (i = 3)))]
      ++ RunnerEvent.runCleanup :: rest :=
  (C5_cleanup_only_after_all_other_tasks [1, 2] [3] 3 c5Env).1 (by decide)

lemma execTrace_append (s : GState) (l1 l2 : List GAction) :
    execTrace s (l1 ++ l2) =
      match execTrace s l1 with
      | none => none
      | some s2 => execTrace s2 l2 := by
  induction l1 generalizing s with
  | nil => rfl
  | cons a rest ih =>
    simp only [List.cons_append, execTrace]
    cases gstep s a with
    | none => rfl
    | some s2 => exact ih s2

lemma gstep_gate (s : GState) (a : GAction) (s2 : GState) (h : gstep s a = some s2) :
    s2.gateOpen = (s.gateOpen || decide (a = GAction.openGate)) := by
  unfold gstep at h
  split at h
  · split at h
    · cases h
    · split at h
      · cases h
        rfl
      · cases h
  · split at h
    · split at h
      · cases h
        simp_all
      · cases h
    · cases h
      simp_all [isRunnerAction]
    · cases h

lemma gstep_body_gate (s : GState) (i : Nat) (s2 : GState)
    (h : gstep s (GAction.body i) = some s2) : s.gateOpen = true := by
  unfold gstep at h
  simp only [isRunnerAction, Bool.false_eq_true, if_false] at h
  by_cases hg : s.gateOpen
  · exact hg
  · simp [hg] at h

lemma gstep_runnerRem (s : GState) (a : GAction) (s2 : GState) (h : gstep s a = some s2) :
    (isRunnerAction a = true → s.runnerRem = a :: s2.runnerRem)
    ∧ (isRunnerAction a = false → s2.runnerRem = s.runnerRem) := by
  unfold gstep at h
  split at h
  · rename_i hra
    split at h
    · cases h
    · split at h
      · rename_i r rest heq hr
        cases h
        constructor
        · intro _
          rw [heq, hr]
        · intro hfalse
          rw [hra] at hfalse
          cases hfalse
      · cases h
  · rename_i hra
    constructor
    · intro htrue
      exact absurd htrue hra
    · intro _
      split at h
      · split at h
        · cases h
          rfl
        · cases h
      · cases h
        rfl
      · cases h

lemma exec_gate_iff (tr : List GAction) (s s2 : GState)
    (h : execTrace s tr = some s2) :
    (s2.gateOpen = true ↔ (s.gateOpen = true ∨ GAction.openGate ∈ tr)) := by
  induction tr generalizing s with
  | nil =>
    simp only [execTrace, Option.some.injEq] at h
    subst h
    simp
  | cons a rest ih =>
    simp only [execTrace] at h
    cases hg : gstep s a with
    | none => rw [hg] at h; cases h
    | some s1 =>
      rw [hg] at h
      have h1 := gstep_gate s a s1 hg
      have h2 := ih s1 h
      rw [h2, List.mem_cons]
      constructor
      · rintro (hgate | hmem)
        · rw [h1] at hgate
          rcases Bool.or_eq_true_iff.mp hgate with hx | hx
          · exact Or.inl hx
          · exact Or.inr (Or.inl (of_decide_eq_true hx).symm)
        · exact Or.inr (Or.inr hmem)
      · rintro (hgate | heq | hmem)
        · left
          rw [h1, hgate]
          simp
        · left
          rw [h1, heq.symm]
          simp
        · exact Or.inr hmem

lemma exec_runner_filter (tr : List GAction) (s s2 : GState)
    (h : execTrace s tr = some s2) :
    s.runnerRem = tr.filter isRunnerAction ++ s2.runnerRem := by
  induction tr generalizing s with
  | nil =>
    simp only [execTrace, Option.some.injEq] at h
    subst h
    simp
  | cons a rest ih =>
    simp only [execTrace] at h
    cases hg : gstep s a with
    | none => rw [hg] at h; cases h
    | some s1 =>
      rw [hg] at h
      have hrec := ih s1 h
      by_cases hra : isRunnerAction a
      · have h1 := (gstep_runnerRem s a s1 hg).1 hra
        rw [h1, hrec, List.filter_cons_of_pos hra]
        simp
      · have h1 := (gstep_runnerRem s a s1 hg).2 (Bool.not_eq_true _ ▸ by simpa using hra)
        rw [← h1, hrec, List.filter_cons_of_neg (by simpa using hra)]

lemma startupDone_in_consumed (f rem : List GAction)
    (h : [GAction.startupDone, GAction.openGate, GAction.raiseReady] = f ++ rem)
    (hg : GAction.openGate ∈ f) : GAction.startupDone ∈ f := by
  cases f with
  | nil => simp at hg
  | cons x f2 =>
    have hx : GAction.startupDone = x := by
      rw [List.cons_append] at h
      exact (List.cons.inj h).1
    rw [← hx]
    exact List.mem_cons_self _ _

lemma consumed_in_script (f rem : List GAction) (a : GAction)
    (h : [GAction.startupCancel] = f ++ rem) (ha : a ∈ f) :
    a = GAction.startupCancel := by
  have : a ∈ f ++ rem := List.mem_append_left _ ha
  rw [← h] at this
  simpa using this

/-- C4: in every valid interleaving of the startup phase, a guarded
task begins its real body only after the startup activity has completed
and the gate has been opened; the ready flag is raised only after the
gate is opened (which itself follows startup completion); and when the
runner is cancelled during the startup activity the gate is never
opened, no guarded body ever begins, and the runner propagates the
cancellation as its result with nothing after the startup step. -/
theorem C4_no_real_work_before_startup
    (c : Bool) (tr : List GAction) (h : ValidStartupTrace c tr) :
    (∀ i l1 l2, tr = l1 ++ GAction.body i :: l2 →
        GAction.startupDone ∈ l1 ∧ GAction.openGate ∈ l1)
    ∧ (∀ l1 l2, tr = l1 ++ GAction.raiseReady :: l2 →
        GAction.openGate ∈ l1)
    ∧ (c = true → GAction.openGate ∉ tr ∧ (∀ i, GAction.body i ∉ tr))
    ∧ (∀ rootIds systemIds selfId env, env.startupOutcome = ActOutcome.cancelled →
        startup_cleanup_activities rootIds systemIds selfId env =
          ([RunnerEvent.runStartup], RunnerResult.cancelled)
        ∧ RunnerEvent.openGate ∉ (startup_cleanup_activities rootIds systemIds selfId env).1) := by
  obtain ⟨send, hexec⟩ := Option.isSome_iff_exists.mp h
  have hgate_of_body : ∀ i l1 l2, tr = l1 ++ GAction.body i :: l2 →
      GAction.openGate ∈ l1 := by
    intro i l1 l2 hdec
    rw [hdec, execTrace_append] at hexec
    cases he1 : execTrace (initGState c) l1 with
    | none => rw [he1] at hexec; cases hexec
    | some s1 =>
      rw [he1] at hexec
      simp only [execTrace] at hexec
      cases hg : gstep s1 (GAction.body i) with
      | none => rw [hg] at hexec; cases hexec
      | some s2 =>
        have hopen := gstep_body_gate s1 i s2 hg
        have hiff := exec_gate_iff l1 (initGState c) s1 he1
        rcases hiff.mp hopen with hfalse | hmem
        · simp [initGState] at hfalse
        · exact hmem
  have hscript : ∀ l1 (s1 : GState), execTrace (initGState c) l1 = some s1 →
      runnerScript c = l1.filter isRunnerAction ++ s1.runnerRem := by
    intro l1 s1 he1
    exact exec_runner_filter l1 (initGState c) s1 he1
  refine ⟨?_, ?_, ?_, ?_⟩
  · intro i l1 l2 hdec
    have hopen := hgate_of_body i l1 l2 hdec
    refine ⟨?_, hopen⟩
    rw [hdec, execTrace_append] at hexec
    cases he1 : execTrace (initGState c) l1 with
    | none => rw [he1] at hexec; cases hexec
    | some s1 =>
      have hfil := hscript l1 s1 he1
      have hopenf : GAction.openGate ∈ l1.filter isRunnerAction :=
        List.mem_filter.mpr ⟨hopen, rfl⟩
      cases hc : c with
      | true =>
        rw [hc] at hfil
        have := consumed_in_script _ _ _ (by simpa [runnerScript] using hfil) hopenf
        cases this
      | false =>
        rw [hc] at hfil
        have hdone := startupDone_in_consumed _ _
          (by simpa [runnerScript] using hfil) hopenf
        exact List.mem_of_mem_filter hdone
  · intro l1 l2 hdec
    rw [hdec, execTrace_append] at hexec
    cases he1 : execTrace (initGState c) l1 with
    | none => rw [he1] at hexec; cases hexec
    | some s1 =>
      rw [he1] at hexec
      simp only [execTrace] at hexec
      cases hg : gstep s1 GAction.raiseReady with
      | none => rw [hg] at hexec; cases hexec
      | some s2 =>
        have hcons := (gstep_runnerRem s1 GAction.raiseReady s2 hg).1 rfl
        have hfil := hscript l1 s1 he1
        rw [hcons] at hfil
        cases hc : c with
        | true =>
          rw [hc] at hfil
          simp only [runnerScript, if_true] at hfil
          have : GAction.raiseReady ∈ [GAction.startupCancel] := by
            rw [hfil]
            exact List.mem_append_right _ (List.mem_cons_self _ _)
          simp at this
        | false =>
          rw [hc] at hfil
          simp only [runnerScript, Bool.false_eq_true, if_false] at hfil
          -- hfil : [startupDone, openGate, raiseReady] = filter ++ raiseReady :: rem
          cases hf : l1.filter isRunnerAction with
          | nil =>
            rw [hf] at hfil
            simp at hfil
          | cons x f2 =>
            rw [hf, List.cons_append] at hfil
            obtain ⟨hx, hfil2⟩ := List.cons.inj hfil
            cases f2 with
            | nil =>
              simp at hfil2
            | cons y f3 =>
              rw [List.cons_append] at hfil2
              obtain ⟨hy, _⟩ := List.cons.inj hfil2
              have : GAction.openGate ∈ l1.filter isRunnerAction := by
                rw [hf, hy]
                exact List.mem_cons_of_mem _ (List.mem_cons_self _ _)
              exact List.mem_of_mem_filter this
  · intro hc
    subst hc
    have hnoopen : GAction.openGate ∉ tr := by
      intro hmem
      obtain ⟨l1, l2, hdec⟩ := List.append_of_mem hmem
      rw [hdec, execTrace_append] at hexec
      cases he1 : execTrace (initGState true) l1 with
      | none => rw [he1] at hexec; cases hexec
      | some s1 =>
        rw [he1] at hexec
        simp only [execTrace] at hexec
        cases hg : gstep s1 GAction.openGate with
        | none => rw [hg] at hexec; cases hexec
        | some s2 =>
          have hcons := (gstep_runnerRem s1 GAction.openGate s2 hg).1 rfl
          have hfil := hscript l1 s1 he1
          rw [hcons] at hfil
          simp only [runnerScript, if_true] at hfil
          have : GAction.openGate ∈ [GAction.startupCancel] := by
            rw [hfil]
            exact List.mem_append_right _ (List.mem_cons_self _ _)
          simp at this
    refine ⟨hnoopen, ?_⟩
    intro i hmem
    obtain ⟨l1, l2, hdec⟩ := List.append_of_mem hmem
    have := hgate_of_body i l1 l2 hdec
    exact hnoopen (hdec ▸ List.mem_append_left _ this)
  · intro rootIds systemIds selfId env hso
    rcases env with ⟨so, wc, co⟩
    cases so <;> simp_all [startup_cleanup_activities]

theorem C4_no_real_work_before_startup_witness :
    GAction.startupDone ∈ [GAction.guardCancel 5, GAction.startupDone, GAction.openGate]
    ∧ GAction.openGate ∈ [GAction.guardCancel 5, GAction.startupDone, GAction.openGate] :=
  (C4_no_real_work_before_startup false c4Trace (by decide)).1 1
    [GAction.guardCancel 5, GAction.startupDone, GAction.openGate]
    [GAction.raiseReady] rfl

/-- C6 counterexample: with the ultimate-exiting timeout configured to
None and the stop flag unset, the cancelled watchdog arms no timer at
all, refuting the claim that an unset stop flag always leads to an
armed SIGKILL timer with the configured timeout. -/
theorem C6_unset_flag_no_timer_when_timeout_none :
    check_flag none = false
    ∧ ultimate_termination ⟨⟨none⟩⟩ none = none
    ∧ ¬ ∃ t, ultimate_termination ⟨⟨none⟩⟩ none = some t :=
  ⟨rfl, rfl, by rintro ⟨t, h⟩; exact Option.noConfusion h⟩

/-- C6 (amended): when the cancelled watchdog sees the external stop
flag already set, it arms no forced-kill timer; when the flag is unset
and the configured ultimate-exiting timeout is not None, it arms the
delayed SIGKILL with exactly the configured timeout. -/
theorem C6_watchdog_arming (settings : OperatorSettings) (stop_flag : Option Bool) :
    (check_flag stop_flag = true → ultimate_termination settings stop_flag = none)
    ∧ (check_flag stop_flag = false →
        ∀ t, settings.process.ultimate_exiting_timeout = some t →
          ultimate_termination settings stop_flag = some t) := by
  constructor
  · intro h
    simp [ultimate_termination, h]
  · intro h t ht
    simp [ultimate_termination, h, ht]

theorem C6_watchdog_arming_witness :
    ultimate_termination ⟨⟨some 600⟩⟩ (some true) = none
    ∧ ultimate_termination ⟨⟨some 600⟩⟩ (some false) = some 600 :=
  ⟨(C6_watchdog_arming ⟨⟨some 600⟩⟩ (some true)).1 rfl,
   (C6_watchdog_arming ⟨⟨some 600⟩⟩ (some false)).2 rfl 600 rfl⟩

/-- C10: when the ultimate-exiting timeout setting is None, the
cancelled watchdog arms no forced-kill timer, whatever the state of the
external stop flag: the process is never forcibly killed in that
configuration. -/
theorem C10_none_timeout_never_arms (settings : OperatorSettings) (stop_flag : Option Bool)
    (h : settings.process.ultimate_exiting_timeout = none) :
    ultimate_termination settings stop_flag = none := by
  by_cases hf : check_flag stop_flag <;> simp [ultimate_termination, hf, h]

theorem C10_none_timeout_never_arms_witness :
    ultimate_termination ⟨⟨none⟩⟩ (some false) = none :=
  C10_none_timeout_never_arms ⟨⟨none⟩⟩ (some false) rfl

lemma isEmpty_false_of_ne_nil {α : Type} (l : List α) (h : l ≠ []) :
    l.isEmpty = false := by
  cases l with
  | nil => exact absurd rfl h
  | cons a t => rfl

/-- C7: spawn_tasks fails with a TypeError, before any task is created,
when the cluster-wide flag is combined with namespaces, and when the
namespaces option is combined with the deprecated single-namespace
option; when neither the cluster-wide flag nor any namespace is given,
it proceeds in cluster-wide mode and emits the backward-compatibility
warning instead of failing. -/
theorem C7_spawn_scope_validation (cfg : SpawnConfig) :
    (cfg.clusterwide = true → cfg.namespaces ≠ [] →
       ∃ e, spawn_tasks cfg = Except.error e)
    ∧ (cfg.namespaces ≠ [] → truthyStr cfg.namespaceArg = true →
       spawn_tasks cfg = Except.error SpawnError.bothNamespaceKinds)
    ∧ (cfg.clusterwide = false → cfg.namespaces = [] →
       truthyStr cfg.namespaceArg = false →
       ∃ r, spawn_tasks cfg = Except.ok r ∧ r.clusterwide = true
         ∧ SpawnWarning.defaultingToClusterwide ∈ r.warnings) := by
  refine ⟨?_, ?_, ?_⟩
  · intro hcw hns
    have hne := isEmpty_false_of_ne_nil cfg.namespaces hns
    by_cases ht : truthyStr cfg.namespaceArg = true
    · have hv : validate_scope cfg.clusterwide cfg.namespaces cfg.namespaceArg =
          Except.error SpawnError.bothNamespaceKinds := by
        simp [validate_scope, hne, ht]
      exact ⟨SpawnError.bothNamespaceKinds, by rw [spawn_tasks, hv]⟩
    · have hb : truthyStr cfg.namespaceArg = false := by simpa using ht
      have hv : validate_scope cfg.clusterwide cfg.namespaces cfg.namespaceArg =
          Except.error SpawnError.bothClusterwideAndNamespaces := by
        simp [validate_scope, hne, hb, hcw]
      exact ⟨SpawnError.bothClusterwideAndNamespaces, by rw [spawn_tasks, hv]⟩
  · intro hns ht
    have hne := isEmpty_false_of_ne_nil cfg.namespaces hns
    have hv : validate_scope cfg.clusterwide cfg.namespaces cfg.namespaceArg =
        Except.error SpawnError.bothNamespaceKinds := by
      simp [validate_scope, hne, ht]
    rw [spawn_tasks, hv]
  · intro hcw hns ht
    have hv : validate_scope cfg.clusterwide cfg.namespaces cfg.namespaceArg =
        Except.ok (true, [], [SpawnWarning.defaultingToClusterwide]) := by
      simp [validate_scope, hns, ht, hcw]
    refine ⟨_, by rw [spawn_tasks, hv], rfl, by simp⟩

theorem C7_spawn_scope_validation_witness :
    (∃ e, spawn_tasks ⟨true, ["ns1"], none, none, false⟩ = Except.error e)
    ∧ spawn_tasks ⟨false, ["ns1"], some "ns2", none, false⟩ =
        Except.error SpawnError.bothNamespaceKinds
    ∧ (∃ r, spawn_tasks ⟨false, [], none, none, false⟩ = Except.ok r
        ∧ r.clusterwide = true
        ∧ SpawnWarning.defaultingToClusterwide ∈ r.warnings) :=
  ⟨(C7_spawn_scope_validation ⟨true, ["ns1"], none, none, false⟩).1 rfl (by decide),
   (C7_spawn_scope_validation ⟨false, ["ns1"], some "ns2", none, false⟩).2.1
     (by decide) (by decide),
   (C7_spawn_scope_validation ⟨false, [], none, none, false⟩).2.2 rfl rfl rfl⟩

/-- C8: resolving the signal slot a second time has no effect on the
stored value (the second set_result fails without changing the slot);
spawn_tasks creates exactly one stop-flag checker task per operator
run; and the checker exits normally, exactly once, on every possible
input, including a cancelled wait. -/
theorem C8_signal_slot_second_resolution_no_effect :
    (∀ slot v, slot.isSome = true → set_result slot v = (slot, false))
    ∧ (∀ cfg r, spawn_tasks cfg = Except.ok r →
        r.systemTaskNames.count "stop-flag checker" = 1)
    ∧ (∀ inp, (stop_flag_checker inp).isSome = true) := by
  refine ⟨?_, ?_, ?_⟩
  · intro slot v h
    cases slot with
    | none => simp at h
    | some w => rfl
  · intro cfg r h
    unfold spawn_tasks at h
    cases hv : validate_scope cfg.clusterwide cfg.namespaces cfg.namespaceArg with
    | error e =>
      rw [hv] at h
      cases h
    | ok validated =>
      rw [hv] at h
      cases h
      rfl
  · intro inp
    cases inp <;> rfl

theorem C8_signal_slot_second_resolution_no_effect_witness :
    set_result (set_result none 2).1 15 = ((set_result none 2).1, false)
    ∧ (stop_flag_checker CheckerInput.cancelled).isSome = true :=
  ⟨(C8_signal_slot_second_resolution_no_effect).1 (set_result none 2).1 15 rfl,
   (C8_signal_slot_second_resolution_no_effect).2.2 CheckerInput.cancelled⟩

/-- C9 counterexample: no two operator configurations make run_tasks
use different hung-task reap timeouts or different progress-logging
intervals — these values are insensitive to the whole settings surface,
refuting the claim that all three shutdown values are externally
configurable. -/
theorem C9_reap_timeout_and_intervals_not_configurable :
    ¬ ((∃ s1 s2 : OperatorSettings, ∃ sys root : List OpTask, ∃ env : RunEnv,
          hungReapTimeoutsUnder s1 sys root env ≠ hungReapTimeoutsUnder s2 sys root env)
       ∨ (∃ s1 s2 : OperatorSettings, ∃ sys root : List OpTask, ∃ env : RunEnv,
          stopIntervalsUnder s1 sys root env ≠ stopIntervalsUnder s2 sys root env)) := by
  rintro (⟨s1, s2, sys, root, env, h⟩ | ⟨s1, s2, sys, root, env, h⟩) <;> exact h rfl

/-- C9 (amended): the ultimate-exiting timeout is configurable through
the settings object — the armed delay equals the configured value —
while the hung-task reap timeout and the logging intervals used by
run_tasks are fixed constants independent of the configuration: the
hung wait uses 5 seconds, and the normal path uses the default interval
for the Root and System passes and 1 second for the Hung pass. -/
theorem C9_only_ultimate_timeout_configurable
    (s1 s2 : OperatorSettings) (sys root : List OpTask) (env : RunEnv)
    (hfw : env.firstWaitCancelled = false) (hhw : env.hungWaitCancelled = false) :
    (∀ t, s1.process.ultimate_exiting_timeout = some t →
       ultimate_termination s1 none = some t)
    ∧ hungReapTimeoutsUnder s1 sys root env = hungReapTimeoutsUnder s2 sys root env
    ∧ hungReapTimeoutsUnder s1 sys root env = [5]
    ∧ stopIntervalsUnder s1 sys root env = [none, none, some 1] := by
  refine ⟨?_, rfl, ?_, ?_⟩
  · intro t ht
    simp [ultimate_termination, check_flag, ht]
  · simp [hungReapTimeoutsUnder, hungWaitTimeouts, run_tasks, hfw, hhw]
  · simp [stopIntervalsUnder, stopIntervals, run_tasks, hfw, hhw]

theorem C9_only_ultimate_timeout_configurable_witness :
    ultimate_termination ⟨⟨some 300⟩⟩ none = some 300
    ∧ hungReapTimeoutsUnder ⟨⟨some 300⟩⟩ [] [] ⟨false, [], [], false, []⟩ = [5]
    ∧ stopIntervalsUnder ⟨⟨some 300⟩⟩ [] [] ⟨false, [], [], false, []⟩ =
        [none, none, some 1] :=
  ⟨(C9_only_ultimate_timeout_configurable ⟨⟨some 300⟩⟩ ⟨⟨none⟩⟩ [] []
      ⟨false, [], [], false, []⟩ rfl rfl).1 300 rfl,
   (C9_only_ultimate_timeout_configurable ⟨⟨some 300⟩⟩ ⟨⟨none⟩⟩ [] []
      ⟨false, [], [], false, []⟩ rfl rfl).2.2.1,
   (C9_only_ultimate_timeout_configurable ⟨⟨some 300⟩⟩ ⟨⟨none⟩⟩ [] []
      ⟨false, [], [], false, []⟩ rfl rfl).2.2.2⟩

end Kopf
